import Mathlib

/-!
Shallow embedding of the `mc-rcon` RCON client (`src/lib.rs`).

The client exchanges length-prefixed binary packets over a byte stream.
We model the stream as a pure value: incoming bytes are a `List Nat`
(each element a byte value) consumed from the front, and outgoing bytes
are accumulated in a `written` field of the result of each operation.
Machine integers (`i32`) are modelled as `Int` with explicit
twos-complement wrapping; `usize` values that the code obtains from `i32`
via `try_from` are modelled together with the panic that a failed
conversion (or a subtraction underflow) causes.  Rust panics are a
distinct outcome constructor, never collapsed into error returns.
-/

namespace McRcon

/-- `MAX_OUTGOING_PAYLOAD_LEN` from the source: longest payload the client sends. -/
def MAX_OUTGOING_PAYLOAD_LEN : Nat := 1446

/-- `MAX_INCOMING_PAYLOAD_LEN` from the source: per-packet cap on incoming payloads. -/
def MAX_INCOMING_PAYLOAD_LEN : Nat := 4096

/-- `HEADER_LEN` from the source: id + type + terminator bytes counted by the length field. -/
def HEADER_LEN : Nat := 10

/-- `LOGIN_TYPE` from the source. -/
def LOGIN_TYPE : Int := 3

/-- `COMMAND_TYPE` from the source. -/
def COMMAND_TYPE : Int := 2

/-- Wrapping into the signed 32-bit range (twos complement), as performed by
the wrapping `i32` arithmetic of Rust (`AtomicI32::fetch_add`, `from_le_bytes`). -/
def wrap32 (n : Int) : Int := (n + 2147483648) % 4294967296 - 2147483648

/-- The signed 32-bit range, satisfied by every `i32` value of the program. -/
def validI32 (n : Int) : Prop := -2147483648 ≤ n ∧ n ≤ 2147483647

instance (n : Int) : Decidable (validI32 n) := by
  unfold validI32
  infer_instance

/-- `i32::to_le_bytes`: the four little-endian bytes of a signed 32-bit value. -/
def toLe4 (n : Int) : List Nat :=
  let m := (n % 4294967296).toNat
  [m % 256, m / 256 % 256, m / 65536 % 256, m / 16777216 % 256]

/-- `i32::from_le_bytes`: reassemble a signed 32-bit value from four bytes. -/
def fromLe4 (b0 b1 b2 b3 : Nat) : Int :=
  wrap32 (Int.ofNat (b0 + 256 * b1 + 65536 * b2 + 16777216 * b3))

/-- The byte of a stream at a given offset (used to state layout facts). -/
def byteAt (s : List Nat) (i : Nat) : Nat := s.getD i 0

/-- The outgoing packet bytes built by `RconClient::send` (source lines 144-148,
and again for the probe at lines 178-182): little-endian length field
`HEADER_LEN + payload length`, little-endian id, little-endian type, the payload,
and two zero bytes. -/
def pktBytes (id ty : Int) (pl : List Nat) : List Nat :=
  toLe4 (HEADER_LEN + (pl.length : Int)) ++ toLe4 id ++ toLe4 ty ++ pl ++ [0, 0]

/-- Result of reading one response packet from the stream (source lines 153-163
and 188-196): `ok` carries the packet id, its payload bytes and the unread
remainder of the stream; `ioError` models a failed `read_exact` (stream
exhausted); `panic` models the trap taken when the declared length is below
`HEADER_LEN` — `usize::try_from(in_len).expect(..)` for a negative length, and
the underflowing `- HEADER_LEN` subtraction for lengths 0..9. -/
inductive ReadOutcome where
  | ok (id : Int) (payload : List Nat) (rest : List Nat)
  | ioError
  | panic
deriving DecidableEq

/-- Reading one response packet, following the order of operations in the source:
twelve header bytes are read first (length, id, and a discarded type field),
then the length field is converted — trapping when it is less than
`HEADER_LEN` — and finally the payload and the two terminator bytes are read
(the terminator bytes are read but never inspected, as in the source). -/
def readPacket : List Nat → ReadOutcome
  | a0 :: a1 :: a2 :: a3 :: b0 :: b1 :: b2 :: b3 :: _c0 :: _c1 :: _c2 :: _c3 :: rest =>
    let len := fromLe4 a0 a1 a2 a3
    let id := fromLe4 b0 b1 b2 b3
    if len < (HEADER_LEN : Int) then .panic
    else
      let plen := (len - (HEADER_LEN : Int)).toNat
      if rest.length < plen + 2 then .ioError
      else .ok id (rest.take plen) (rest.drop (plen + 2))
  | _ => .ioError

/-- The `String::from_utf8` validity check of Rust (RFC 3629 well-formedness),
which the source applies to every response payload before returning it. -/
def validUtf8 : List Nat → Bool
  | [] => true
  | b :: bs =>
    if b < 128 then validUtf8 bs
    else match bs with
    | [] => false
    | b1 :: bs1 =>
      if 194 ≤ b ∧ b ≤ 223 then decide (128 ≤ b1 ∧ b1 ≤ 191) && validUtf8 bs1
      else match bs1 with
      | [] => false
      | b2 :: bs2 =>
        if b = 224 then
          decide (160 ≤ b1 ∧ b1 ≤ 191) && decide (128 ≤ b2 ∧ b2 ≤ 191) && validUtf8 bs2
        else if (225 ≤ b ∧ b ≤ 236) ∨ b = 238 ∨ b = 239 then
          decide (128 ≤ b1 ∧ b1 ≤ 191) && decide (128 ≤ b2 ∧ b2 ≤ 191) && validUtf8 bs2
        else if b = 237 then
          decide (128 ≤ b1 ∧ b1 ≤ 159) && decide (128 ≤ b2 ∧ b2 ≤ 191) && validUtf8 bs2
        else match bs2 with
        | [] => false
        | b3 :: bs3 =>
          if b = 240 then
            decide (144 ≤ b1 ∧ b1 ≤ 191) && decide (128 ≤ b2 ∧ b2 ≤ 191) &&
              decide (128 ≤ b3 ∧ b3 ≤ 191) && validUtf8 bs3
          else if 241 ≤ b ∧ b ≤ 243 then
            decide (128 ≤ b1 ∧ b1 ≤ 191) && decide (128 ≤ b2 ∧ b2 ≤ 191) &&
              decide (128 ≤ b3 ∧ b3 ≤ 191) && validUtf8 bs3
          else if b = 244 then
            decide (128 ≤ b1 ∧ b1 ≤ 143) && decide (128 ≤ b2 ∧ b2 ≤ 191) &&
              decide (128 ≤ b3 ∧ b3 ≤ 191) && validUtf8 bs3
          else false

/-- The `PacketKind` trait of the source: a type tag and whether responses of
this kind participate in fragmentation handling. -/
structure PacketKind where
  acceptsLongResponses : Bool
  type : Int

/-- `impl PacketKind for LogInPacket`. -/
def LogInPacket : PacketKind := ⟨false, LOGIN_TYPE⟩

/-- `impl PacketKind for CommandPacket`. -/
def CommandPacket : PacketKind := ⟨true, COMMAND_TYPE⟩

/-- The mutable fields of `RconClient`: the `next_id` counter and the
`logged_in` flag (the owned stream is passed explicitly instead). -/
structure ClientState where
  nextId : Int
  loggedIn : Bool
deriving DecidableEq

/-- The state `RconClient::connect` establishes: counter 0, not logged in. -/
def initialState : ClientState := ⟨0, false⟩

/-- `RconClient::is_logged_in`. -/
def isLoggedIn (st : ClientState) : Bool := st.loggedIn

/-- `RconClient::get_next_id`: `fetch_add(1)` returns the stored value and
stores its wrapping successor; a returned `-1` is skipped by fetching again. -/
def getNextId (st : ClientState) : Int × ClientState :=
  let id := st.nextId
  let st1 : ClientState := ⟨wrap32 (st.nextId + 1), st.loggedIn⟩
  if id = -1 then
    (st1.nextId, ⟨wrap32 (st1.nextId + 1), st1.loggedIn⟩)
  else
    (id, st1)

/-- Outcome of `RconClient::send`: a `SendResponse` (auth flag + payload),
the `SendError` variants, or a panic (`String::from_utf8(..).expect(..)` on a
non-UTF-8 payload, or a bad declared length while reading). -/
inductive SendOutcome where
  | ok (goodAuth : Bool) (payload : List Nat)
  | payloadTooLong
  | ioError
  | panic
deriving DecidableEq

/-- Result of one `send` call: its outcome, the client state afterwards, the
bytes written to the stream, and the unread remainder of the incoming stream. -/
structure SendResult where
  outcome : SendOutcome
  state : ClientState
  written : List Nat
  rest : List Nat
deriving DecidableEq

/-- Outcome of the fragmentation loop of `send` (source lines 187-207). -/
inductive LoopOutcome where
  | done (acc : List Nat)
  | ioError
  | panic
deriving DecidableEq

theorem readPacket_ok_rest_length {s : List Nat} {id : Int} {pl rest : List Nat}
    (h : readPacket s = .ok id pl rest) : rest.length < s.length := by
  match s with
  | a0 :: a1 :: a2 :: a3 :: b0 :: b1 :: b2 :: b3 :: c0 :: c1 :: c2 :: c3 :: tail =>
    simp only [readPacket] at h
    split at h
    · exact absurd h (by simp)
    · split at h
      · exact absurd h (by simp)
      · rw [ReadOutcome.ok.injEq] at h
        obtain ⟨-, -, h3⟩ := h
        subst h3
        simp only [List.length_drop, List.length_cons]
        omega
  | [] => simp [readPacket] at h
  | [a0] => simp [readPacket] at h
  | [a0, a1] => simp [readPacket] at h
  | [a0, a1, a2] => simp [readPacket] at h
  | [a0, a1, a2, a3] => simp [readPacket] at h
  | [a0, a1, a2, a3, b0] => simp [readPacket] at h
  | [a0, a1, a2, a3, b0, b1] => simp [readPacket] at h
  | [a0, a1, a2, a3, b0, b1, b2] => simp [readPacket] at h
  | [a0, a1, a2, a3, b0, b1, b2, b3] => simp [readPacket] at h
  | [a0, a1, a2, a3, b0, b1, b2, b3, c0] => simp [readPacket] at h
  | [a0, a1, a2, a3, b0, b1, b2, b3, c0, c1] => simp [readPacket] at h
  | [a0, a1, a2, a3, b0, b1, b2, b3, c0, c1, c2] => simp [readPacket] at h

/-- The fragmentation loop (source lines 187-207): read packets until one
carries the probe id (`capId`); a packet carrying the id of the first response
(`origId`) is a continuation whose payload is appended; any other id — the
source distinguishes a deauthentication message for `-1` from a mismatch
message — aborts with an I/O-class error.  Returns the accumulated payload and
the unread remainder of the stream. -/
def capLoop (origId capId : Int) (acc : List Nat) (input : List Nat) :
    LoopOutcome × List Nat :=
  match h : readPacket input with
  | .ioError => (.ioError, input)
  | .panic => (.panic, input)
  | .ok iid pl rest =>
    if iid = capId then (.done acc, rest)
    else if iid = origId then capLoop origId capId (acc ++ pl) rest
    else if iid = -1 then (.ioError, rest)
    else (.ioError, rest)
termination_by input.length
decreasing_by exact readPacket_ok_rest_length h

/-- The fixed probe command of the fragmentation workaround
(`const CAP_COMMAND` in the source, the four bytes of the word seed). -/
def CAP_COMMAND : List Nat := [115, 101, 101, 100]

/-- The part of `RconClient::send` after the response header has been
correlated (source lines 173-211): run fragmentation handling when the packet
kind accepts long responses and the first payload reached
`MAX_INCOMING_PAYLOAD_LEN`, then convert the accumulated payload to text —
panicking on invalid UTF-8, as the `expect` in the source does. -/
def sendTail (kind : PacketKind) (inId : Int) (goodAuth : Bool)
    (payloadBuf : List Nat) (st1 : ClientState) (outBuf rest1 : List Nat) :
    SendResult :=
  if kind.acceptsLongResponses = true ∧ MAX_INCOMING_PAYLOAD_LEN ≤ payloadBuf.length then
    let p := getNextId st1
    let capId := p.1
    let st2 := p.2
    let capBuf := pktBytes capId kind.type CAP_COMMAND
    match capLoop inId capId payloadBuf rest1 with
    | (.done acc, rest2) =>
      if validUtf8 acc = true then ⟨.ok goodAuth acc, st2, outBuf ++ capBuf, rest2⟩
      else ⟨.panic, st2, outBuf ++ capBuf, rest2⟩
    | (.ioError, rest2) => ⟨.ioError, st2, outBuf ++ capBuf, rest2⟩
    | (.panic, rest2) => ⟨.panic, st2, outBuf ++ capBuf, rest2⟩
  else
    if validUtf8 payloadBuf = true then ⟨.ok goodAuth payloadBuf, st1, outBuf, rest1⟩
    else ⟨.panic, st1, outBuf, rest1⟩

/-- `RconClient::send` (source lines 129-212): reject an over-long payload
before any traffic, allocate an id, write one packet, read one response packet,
correlate its id (`-1` means failed auth, the sent id means success, anything
else is an I/O-class protocol error), then hand over to `sendTail`. -/
def send (kind : PacketKind) (payload : List Nat) (st : ClientState)
    (input : List Nat) : SendResult :=
  if MAX_OUTGOING_PAYLOAD_LEN < payload.length then ⟨.payloadTooLong, st, [], input⟩
  else
    let p := getNextId st
    let outId := p.1
    let st1 := p.2
    let outBuf := pktBytes outId kind.type payload
    match readPacket input with
    | .ioError => ⟨.ioError, st1, outBuf, input⟩
    | .panic => ⟨.panic, st1, outBuf, input⟩
    | .ok inId payloadBuf rest1 =>
      if inId = -1 then sendTail kind inId false payloadBuf st1 outBuf rest1
      else if inId = outId then sendTail kind inId true payloadBuf st1 outBuf rest1
      else ⟨.ioError, st1, outBuf, rest1⟩

/-- `LogInError`, plus a distinct constructor for panics. -/
inductive LogInResult where
  | ok
  | ioFailure
  | passwordTooLong
  | alreadyLoggedIn
  | badPassword
  | panic
deriving DecidableEq

/-- Result of one `log_in` call: its outcome, the client state afterwards,
the bytes written, and the unread remainder of the incoming stream. -/
structure LogInOutcome where
  result : LogInResult
  state : ClientState
  written : List Nat
  rest : List Nat
deriving DecidableEq

/-- `RconClient::log_in` (via `send_log_in`, source lines 109-119 and 225-229):
refuse when already logged in, otherwise send a login packet; a good-auth
response sets the `logged_in` flag, a failed-auth response is `BadPassword`. -/
def logIn (password : List Nat) (st : ClientState) (input : List Nat) :
    LogInOutcome :=
  if isLoggedIn st = true then ⟨.alreadyLoggedIn, st, [], input⟩
  else
    let r := send LogInPacket password st input
    match r.outcome with
    | .payloadTooLong => ⟨.passwordTooLong, r.state, r.written, r.rest⟩
    | .ioError => ⟨.ioFailure, r.state, r.written, r.rest⟩
    | .panic => ⟨.panic, r.state, r.written, r.rest⟩
    | .ok true _ => ⟨.ok, ⟨r.state.nextId, true⟩, r.written, r.rest⟩
    | .ok false _ => ⟨.badPassword, r.state, r.written, r.rest⟩

/-- `CommandError`, plus the successful response text (as bytes) and a
distinct constructor for panics. -/
inductive CommandResult where
  | ok (response : List Nat)
  | ioFailure
  | commandTooLong
  | notLoggedIn
  | panic
deriving DecidableEq

/-- Result of one `send_command` call: its outcome, the client state
afterwards, the bytes written, and the unread remainder of the stream. -/
structure CommandOutcome where
  result : CommandResult
  state : ClientState
  written : List Nat
  rest : List Nat
deriving DecidableEq

/-- `RconClient::send_command` (source lines 250-260): refuse when not logged
in, otherwise send a command packet; a good-auth response yields the payload,
a failed-auth response is `NotLoggedIn` (and the flag is not touched). -/
def sendCommand (command : List Nat) (st : ClientState) (input : List Nat) :
    CommandOutcome :=
  if isLoggedIn st = false then ⟨.notLoggedIn, st, [], input⟩
  else
    let r := send CommandPacket command st input
    match r.outcome with
    | .payloadTooLong => ⟨.commandTooLong, r.state, r.written, r.rest⟩
    | .ioError => ⟨.ioFailure, r.state, r.written, r.rest⟩
    | .panic => ⟨.panic, r.state, r.written, r.rest⟩
    | .ok true pl => ⟨.ok pl, r.state, r.written, r.rest⟩
    | .ok false _ => ⟨.notLoggedIn, r.state, r.written, r.rest⟩

/-- The id `send` allocates for its request from a given client state. -/
def firstId (st : ClientState) : Int := (getNextId st).1

/-- The id `send` allocates for the fragmentation probe from a given state. -/
def secondId (st : ClientState) : Int := (getNextId (getNextId st).2).1

/-- The n-th client state in the life of a session that only allocates ids. -/
def stateSeq : Nat → ClientState
  | 0 => initialState
  | n + 1 => (getNextId (stateSeq n)).2

/-- The n-th id handed out by the allocator of a fresh session. -/
def idSeq (n : Nat) : Int := (getNextId (stateSeq n)).1

end McRcon

namespace McRcon

theorem fromLe4_toLe4 (n : Int) (h1 : -2147483648 ≤ n) (h2 : n ≤ 2147483647) :
    fromLe4 ((n % 4294967296).toNat % 256) ((n % 4294967296).toNat / 256 % 256)
      ((n % 4294967296).toNat / 65536 % 256) ((n % 4294967296).toNat / 16777216 % 256) = n := by
  have hnn : (0 : Int) ≤ n % 4294967296 := Int.emod_nonneg n (by norm_num)
  have hub : n % 4294967296 < 4294967296 := Int.emod_lt_of_pos n (by norm_num)
  have hm : ((n % 4294967296).toNat : Int) = n % 4294967296 := Int.toNat_of_nonneg hnn
  have key : ∀ m : Nat, m < 4294967296 →
      m % 256 + 256 * (m / 256 % 256) + 65536 * (m / 65536 % 256) +
        16777216 * (m / 16777216 % 256) = m := by
    intro m hmlt
    omega
  simp only [fromLe4, wrap32]
  rw [key ((n % 4294967296).toNat) (by omega)]
  simp only [Int.ofNat_eq_natCast, hm]
  omega

theorem readPacket_pktBytes (id ty : Int) (pl rest : List Nat)
    (hid1 : -2147483648 ≤ id) (hid2 : id ≤ 2147483647)
    (hpl : (pl.length : Int) ≤ 2147483637) :
    readPacket (pktBytes id ty pl ++ rest) = .ok id pl rest := by
  have hL := fromLe4_toLe4 (HEADER_LEN + (pl.length : Int))
    (by simp only [HEADER_LEN]; omega) (by simp only [HEADER_LEN]; omega)
  have hId := fromLe4_toLe4 id hid1 hid2
  simp only [pktBytes, toLe4, List.cons_append, List.nil_append, readPacket]
  rw [hL, hId]
  rw [if_neg (by simp only [HEADER_LEN]; omega)]
  have hplen : ((HEADER_LEN : Int) + pl.length - HEADER_LEN).toNat = pl.length := by
    simp only [HEADER_LEN]; omega
  rw [hplen]
  rw [if_neg (by simp only [List.length_append, List.length_cons, List.length_nil]; omega)]
  simp only [ReadOutcome.ok.injEq]
  refine ⟨trivial, ?_, ?_⟩
  · rw [show pl ++ [0, 0] ++ rest = pl ++ ([0, 0] ++ rest) by simp]
    exact List.take_left pl ([0, 0] ++ rest)
  · rw [show (pl.length + 2) = (pl ++ [0, 0]).length by simp]
    rw [show pl ++ [0, 0] ++ rest = (pl ++ [0, 0]) ++ rest by simp]
    exact List.drop_left (pl ++ [0, 0]) rest

theorem getNextId_snd_loggedIn (st : ClientState) :
    (getNextId st).2.loggedIn = st.loggedIn := by
  simp only [getNextId]
  split <;> rfl

theorem getNextId_fst_eq (st : ClientState) :
    (getNextId st).1 = if st.nextId = -1 then wrap32 (st.nextId + 1) else st.nextId := by
  simp only [getNextId]
  split <;> rfl

theorem getNextId_snd_eq (st : ClientState) :
    (getNextId st).2.nextId =
      if st.nextId = -1 then wrap32 (wrap32 (st.nextId + 1) + 1) else wrap32 (st.nextId + 1) := by
  simp only [getNextId]
  split <;> rfl

theorem getNextId_fst_ne_neg_one (st : ClientState) (h : validI32 st.nextId) :
    (getNextId st).1 ≠ -1 := by
  obtain ⟨h1, h2⟩ := h
  simp only [getNextId, wrap32]
  split <;> simp only <;> omega

theorem getNextId_fst_valid (st : ClientState) (h : validI32 st.nextId) :
    validI32 (getNextId st).1 := by
  obtain ⟨h1, h2⟩ := h
  simp only [getNextId, wrap32, validI32]
  split <;> simp only <;> constructor <;> omega

theorem getNextId_snd_valid (st : ClientState) (h : validI32 st.nextId) :
    validI32 (getNextId st).2.nextId := by
  obtain ⟨h1, h2⟩ := h
  simp only [getNextId, wrap32, validI32]
  split <;> simp only <;> constructor <;> omega

theorem secondId_ne_firstId (st : ClientState) (h : validI32 st.nextId) :
    secondId st ≠ firstId st := by
  obtain ⟨h1, h2⟩ := h
  simp only [secondId, firstId, getNextId, wrap32]
  split <;> split <;> simp only <;> omega

theorem secondId_ne_neg_one (st : ClientState) (h : validI32 st.nextId) :
    secondId st ≠ -1 :=
  getNextId_fst_ne_neg_one _ (getNextId_snd_valid st h)

theorem capLoop_probe_echo (origId capId ty : Int) (acc q tail : List Nat)
    (hcap1 : -2147483648 ≤ capId) (hcap2 : capId ≤ 2147483647)
    (hq : (q.length : Int) ≤ 2147483637) :
    capLoop origId capId acc (pktBytes capId ty q ++ tail) = (.done acc, tail) := by
  rw [capLoop]
  rw [readPacket_pktBytes capId ty q tail hcap1 hcap2 hq]
  simp

theorem capLoop_fragments (origId capId ty : Int) (ps : List (List Nat)) (acc q tail : List Nat)
    (hne : origId ≠ capId)
    (ho1 : -2147483648 ≤ origId) (ho2 : origId ≤ 2147483647)
    (hcap1 : -2147483648 ≤ capId) (hcap2 : capId ≤ 2147483647)
    (hq : (q.length : Int) ≤ 2147483637)
    (hps : ∀ p ∈ ps, (p.length : Int) ≤ 2147483637) :
    capLoop origId capId acc ((ps.map (pktBytes origId ty)).flatten ++ (pktBytes capId ty q ++ tail))
      = (.done (acc ++ ps.flatten), tail) := by
  induction ps generalizing acc with
  | nil =>
    simp only [List.map_nil, List.flatten_nil, List.nil_append, List.append_nil]
    exact capLoop_probe_echo origId capId ty acc q tail hcap1 hcap2 hq
  | cons p ps ih =>
    have hp : (p.length : Int) ≤ 2147483637 := hps p (by simp)
    rw [List.map_cons, List.flatten_cons, List.append_assoc]
    rw [capLoop]
    rw [readPacket_pktBytes origId ty p _ ho1 ho2 hp]
    simp only [if_neg hne, if_pos rfl]
    rw [ih (acc ++ p) (fun x hx => hps x (by simp [hx]))]
    simp

theorem send_one_packet (kind : PacketKind) (payload pl tail : List Nat)
    (st : ClientState) (rid ty : Int)
    (hv : validI32 st.nextId)
    (hlen : payload.length ≤ MAX_OUTGOING_PAYLOAD_LEN)
    (hrid1 : -2147483648 ≤ rid) (hrid2 : rid ≤ 2147483647)
    (hpl : (pl.length : Int) ≤ 2147483637)
    (hnofrag : ¬(kind.acceptsLongResponses = true ∧ MAX_INCOMING_PAYLOAD_LEN ≤ pl.length)) :
    send kind payload st (pktBytes rid ty pl ++ tail) =
      if rid = -1 ∨ rid = firstId st then
        (if validUtf8 pl = true then
          ⟨.ok (decide (rid ≠ -1)) pl, (getNextId st).2, pktBytes (firstId st) kind.type payload, tail⟩
        else ⟨.panic, (getNextId st).2, pktBytes (firstId st) kind.type payload, tail⟩)
      else ⟨.ioError, (getNextId st).2, pktBytes (firstId st) kind.type payload, tail⟩ := by
  have hfst : firstId st ≠ -1 := getNextId_fst_ne_neg_one st hv
  unfold send
  rw [if_neg (by simp only [MAX_OUTGOING_PAYLOAD_LEN] at hlen ⊢; omega)]
  rw [readPacket_pktBytes rid ty pl tail hrid1 hrid2 hpl]
  simp only [sendTail, if_neg hnofrag]
  by_cases hm1 : rid = -1
  · subst hm1
    rw [if_pos rfl, if_pos (Or.inl rfl)]
    have hd : (decide ((-1 : Int) ≠ -1)) = false := by decide
    rw [hd]
    split <;> rfl
  · rw [if_neg hm1]
    by_cases hmatch : rid = firstId st
    · rw [show (getNextId st).1 = firstId st from rfl, if_pos hmatch, if_pos (Or.inr hmatch)]
      have hd : (decide (rid ≠ -1)) = true := by simp [hm1]
      rw [hd]
    · rw [show (getNextId st).1 = firstId st from rfl, if_neg hmatch,
        if_neg (show ¬(rid = -1 ∨ rid = firstId st) by tauto)]

theorem send_fragments (kind : PacketKind) (payload p1 q tail : List Nat)
    (ps : List (List Nat)) (st : ClientState) (rid ty : Int)
    (hv : validI32 st.nextId)
    (hlen : payload.length ≤ MAX_OUTGOING_PAYLOAD_LEN)
    (hrid1 : -2147483648 ≤ rid) (hrid2 : rid ≤ 2147483647)
    (hp1 : MAX_INCOMING_PAYLOAD_LEN ≤ p1.length) (hp1b : (p1.length : Int) ≤ 2147483637)
    (hps : ∀ p ∈ ps, (p.length : Int) ≤ 2147483637)
    (hq : (q.length : Int) ≤ 2147483637)
    (hfrag : kind.acceptsLongResponses = true)
    (hridok : rid = -1 ∨ rid = firstId st) :
    send kind payload st
        (pktBytes rid ty p1 ++ ((ps.map (pktBytes rid ty)).flatten ++ (pktBytes (secondId st) ty q ++ tail))) =
      if validUtf8 (p1 ++ ps.flatten) = true then
        ⟨.ok (decide (rid ≠ -1)) (p1 ++ ps.flatten), (getNextId (getNextId st).2).2,
          pktBytes (firstId st) kind.type payload ++ pktBytes (secondId st) kind.type CAP_COMMAND, tail⟩
      else
        ⟨.panic, (getNextId (getNextId st).2).2,
          pktBytes (firstId st) kind.type payload ++ pktBytes (secondId st) kind.type CAP_COMMAND, tail⟩ := by
  have hfst : firstId st ≠ -1 := getNextId_fst_ne_neg_one st hv
  have hsv : validI32 (getNextId st).2.nextId := getNextId_snd_valid st hv
  have hsv1 : validI32 (secondId st) := getNextId_fst_valid _ hsv
  have hsecne : rid ≠ secondId st := by
    rcases hridok with h | h
    · subst h
      exact fun hc => secondId_ne_neg_one st hv hc.symm
    · subst h
      exact fun hc => secondId_ne_firstId st hv hc.symm
  have hloop : capLoop rid ((getNextId (getNextId st).2).1) p1
      ((List.map (pktBytes rid ty) ps).flatten ++ (pktBytes (secondId st) ty q ++ tail))
      = (LoopOutcome.done (p1 ++ ps.flatten), tail) :=
    capLoop_fragments rid (secondId st) ty ps p1 q tail hsecne hrid1 hrid2
      hsv1.1 hsv1.2 hq hps
  unfold send
  rw [if_neg (by simp only [MAX_OUTGOING_PAYLOAD_LEN] at hlen ⊢; omega)]
  rw [readPacket_pktBytes rid ty p1 _ hrid1 hrid2 hp1b]
  simp only []
  rcases hridok with h | h
  · subst h
    rw [if_pos rfl]
    unfold sendTail
    rw [if_pos ⟨hfrag, hp1⟩]
    simp only []
    rw [hloop]
    simp only []
    have hd : (decide ((-1 : Int) ≠ -1)) = false := by decide
    rw [hd]
    split <;> rfl
  · rw [if_neg (by rw [h]; exact hfst), show (getNextId st).1 = firstId st from rfl, if_pos h]
    unfold sendTail
    rw [if_pos ⟨hfrag, hp1⟩]
    simp only []
    rw [hloop]
    simp only []
    have hd : (decide (rid ≠ -1)) = true := by
      rw [← h] at hfst
      simp [hfst]
    rw [hd]
    split <;> rfl

theorem stateSeq_valid : ∀ n, validI32 (stateSeq n).nextId := by
  intro n
  induction n with
  | zero => exact ⟨by norm_num [stateSeq, initialState], by norm_num [stateSeq, initialState]⟩
  | succ n ih => exact getNextId_snd_valid _ ih

theorem getNextId_consecutive (st : ClientState) (h : validI32 st.nextId) :
    (getNextId st).1 < (getNextId (getNextId st).2).1 ∨ (getNextId st).1 = 2147483647 := by
  obtain ⟨h1, h2⟩ := h
  have e3 := getNextId_fst_eq (getNextId st).2
  rw [getNextId_snd_eq] at e3
  rw [getNextId_fst_eq, e3]
  unfold wrap32
  by_cases ha : st.nextId = -1 <;> simp only [ha, if_true, if_false, reduceIte] <;>
    split <;> omega

theorem getNextId_skip (st : ClientState) (h : st.nextId = -1) :
    (getNextId st).1 = 0 := by
  simp only [getNextId, wrap32, h]
  norm_num

end McRcon

namespace McRcon

theorem logIn_eq (st : ClientState) (pw pl tail : List Nat) (rid ty : Int)
    (hv : validI32 st.nextId) (hlog : st.loggedIn = false)
    (hpw : pw.length ≤ MAX_OUTGOING_PAYLOAD_LEN)
    (hrid1 : -2147483648 ≤ rid) (hrid2 : rid ≤ 2147483647)
    (hpl : (pl.length : Int) ≤ 2147483637) :
    logIn pw st (pktBytes rid ty pl ++ tail) =
      if rid = -1 then
        (if validUtf8 pl = true then
          ⟨.badPassword, (getNextId st).2, pktBytes (firstId st) LOGIN_TYPE pw, tail⟩
        else ⟨.panic, (getNextId st).2, pktBytes (firstId st) LOGIN_TYPE pw, tail⟩)
      else if rid = firstId st then
        (if validUtf8 pl = true then
          ⟨.ok, ⟨(getNextId st).2.nextId, true⟩, pktBytes (firstId st) LOGIN_TYPE pw, tail⟩
        else ⟨.panic, (getNextId st).2, pktBytes (firstId st) LOGIN_TYPE pw, tail⟩)
      else ⟨.ioFailure, (getNextId st).2, pktBytes (firstId st) LOGIN_TYPE pw, tail⟩ := by
  have hfst : firstId st ≠ -1 := getNextId_fst_ne_neg_one st hv
  have hsend := send_one_packet LogInPacket pw pl tail st rid ty hv hpw hrid1 hrid2 hpl
    (by simp [LogInPacket])
  unfold logIn
  rw [if_neg (by simp [isLoggedIn, hlog])]
  simp only [hsend]
  simp only [LogInPacket]
  by_cases hm1 : rid = -1
  · subst hm1
    rw [if_pos (Or.inl rfl), if_pos rfl]
    have hd : (decide ((-1 : Int) ≠ -1)) = false := by decide
    rw [hd]
    by_cases hu : validUtf8 pl = true
    · simp [hu]
    · simp [hu]
  · rw [if_neg hm1]
    by_cases hmatch : rid = firstId st
    · rw [if_pos (Or.inr hmatch), if_pos hmatch]
      have hd : (decide (rid ≠ -1)) = true := by simp [hm1]
      rw [hd]
      by_cases hu : validUtf8 pl = true
      · simp [hu]
      · simp [hu]
    · rw [if_neg (show ¬(rid = -1 ∨ rid = firstId st) by tauto), if_neg hmatch]

theorem sendCommand_eq (st : ClientState) (cmd pl tail : List Nat) (rid ty : Int)
    (hv : validI32 st.nextId) (hlog : st.loggedIn = true)
    (hcmd : cmd.length ≤ MAX_OUTGOING_PAYLOAD_LEN)
    (hrid1 : -2147483648 ≤ rid) (hrid2 : rid ≤ 2147483647)
    (hpl : (pl.length : Int) ≤ 2147483637)
    (hsmall : pl.length < MAX_INCOMING_PAYLOAD_LEN) :
    sendCommand cmd st (pktBytes rid ty pl ++ tail) =
      if rid = -1 then
        (if validUtf8 pl = true then
          ⟨.notLoggedIn, (getNextId st).2, pktBytes (firstId st) COMMAND_TYPE cmd, tail⟩
        else ⟨.panic, (getNextId st).2, pktBytes (firstId st) COMMAND_TYPE cmd, tail⟩)
      else if rid = firstId st then
        (if validUtf8 pl = true then
          ⟨.ok pl, (getNextId st).2, pktBytes (firstId st) COMMAND_TYPE cmd, tail⟩
        else ⟨.panic, (getNextId st).2, pktBytes (firstId st) COMMAND_TYPE cmd, tail⟩)
      else ⟨.ioFailure, (getNextId st).2, pktBytes (firstId st) COMMAND_TYPE cmd, tail⟩ := by
  have hfst : firstId st ≠ -1 := getNextId_fst_ne_neg_one st hv
  have hsend := send_one_packet CommandPacket cmd pl tail st rid ty hv hcmd hrid1 hrid2 hpl
    (by simp [CommandPacket]; omega)
  unfold sendCommand
  rw [if_neg (by simp [isLoggedIn, hlog])]
  simp only [hsend]
  simp only [CommandPacket]
  by_cases hm1 : rid = -1
  · subst hm1
    rw [if_pos (Or.inl rfl), if_pos rfl]
    have hd : (decide ((-1 : Int) ≠ -1)) = false := by decide
    rw [hd]
    by_cases hu : validUtf8 pl = true
    · simp [hu]
    · simp [hu]
  · rw [if_neg hm1]
    by_cases hmatch : rid = firstId st
    · rw [if_pos (Or.inr hmatch), if_pos hmatch]
      have hd : (decide (rid ≠ -1)) = true := by simp [hm1]
      rw [hd]
      by_cases hu : validUtf8 pl = true
      · simp [hu]
      · simp [hu]
    · rw [if_neg (show ¬(rid = -1 ∨ rid = firstId st) by tauto), if_neg hmatch]

theorem sendCommand_frag_eq (st : ClientState) (cmd p1 q tail : List Nat)
    (ps : List (List Nat)) (rid ty : Int)
    (hv : validI32 st.nextId) (hlog : st.loggedIn = true)
    (hcmd : cmd.length ≤ MAX_OUTGOING_PAYLOAD_LEN)
    (hrid1 : -2147483648 ≤ rid) (hrid2 : rid ≤ 2147483647)
    (hp1 : MAX_INCOMING_PAYLOAD_LEN ≤ p1.length) (hp1b : (p1.length : Int) ≤ 2147483637)
    (hps : ∀ p ∈ ps, (p.length : Int) ≤ 2147483637)
    (hq : (q.length : Int) ≤ 2147483637)
    (hridok : rid = -1 ∨ rid = firstId st) :
    sendCommand cmd st
        (pktBytes rid ty p1 ++ ((ps.map (pktBytes rid ty)).flatten ++ (pktBytes (secondId st) ty q ++ tail))) =
      if validUtf8 (p1 ++ ps.flatten) = true then
        (if rid = -1 then
          ⟨.notLoggedIn, (getNextId (getNextId st).2).2,
            pktBytes (firstId st) COMMAND_TYPE cmd ++ pktBytes (secondId st) COMMAND_TYPE CAP_COMMAND, tail⟩
        else
          ⟨.ok (p1 ++ ps.flatten), (getNextId (getNextId st).2).2,
            pktBytes (firstId st) COMMAND_TYPE cmd ++ pktBytes (secondId st) COMMAND_TYPE CAP_COMMAND, tail⟩)
      else
        ⟨.panic, (getNextId (getNextId st).2).2,
          pktBytes (firstId st) COMMAND_TYPE cmd ++ pktBytes (secondId st) COMMAND_TYPE CAP_COMMAND, tail⟩ := by
  have hfst : firstId st ≠ -1 := getNextId_fst_ne_neg_one st hv
  have hsend := send_fragments CommandPacket cmd p1 q tail ps st rid ty hv hcmd hrid1 hrid2
    hp1 hp1b hps hq (by simp [CommandPacket]) hridok
  unfold sendCommand
  rw [if_neg (by simp [isLoggedIn, hlog])]
  simp only [hsend]
  simp only [CommandPacket]
  by_cases hval : validUtf8 (p1 ++ ps.flatten) = true
  · rw [if_pos hval, if_pos hval]
    rcases hridok with h | h
    · subst h
      have hd : (decide ((-1 : Int) ≠ -1)) = false := by decide
      rw [hd, if_pos rfl]
    · have hm1 : rid ≠ -1 := by rw [h]; exact hfst
      have hd : (decide (rid ≠ -1)) = true := by simp [hm1]
      rw [hd, if_neg hm1]
  · rw [if_neg hval, if_neg hval]

end McRcon

namespace McRcon

/-- C1 (amended): for a login on an unauthenticated session with a password of
at most `MAX_OUTGOING_PAYLOAD_LEN` bytes, answered by a single response packet:
a response carrying the sent id (and a valid-UTF-8 payload) makes `log_in`
succeed and sets the logged-in flag; a response carrying id -1 (and a
valid-UTF-8 payload) fails with `BadPassword` and leaves the flag unset; any
other response id fails with an I/O-class error; and in every case exactly one
login packet is written and no probe is sent nor any further packet read,
regardless of the response payload size.  (With an invalid-UTF-8 payload in the
first two cases the call panics instead of returning — see the
counterexample.) -/
theorem logIn_response_cases (st : ClientState) (pw pl tail : List Nat) (rid ty : Int)
    (hv : validI32 st.nextId) (hlog : st.loggedIn = false)
    (hpw : pw.length ≤ MAX_OUTGOING_PAYLOAD_LEN)
    (hrid1 : -2147483648 ≤ rid) (hrid2 : rid ≤ 2147483647)
    (hpl : (pl.length : Int) ≤ 2147483637) :
    (rid = firstId st → validUtf8 pl = true →
      (logIn pw st (pktBytes rid ty pl ++ tail)).result = .ok ∧
      (logIn pw st (pktBytes rid ty pl ++ tail)).state.loggedIn = true) ∧
    (rid = -1 → validUtf8 pl = true →
      (logIn pw st (pktBytes rid ty pl ++ tail)).result = .badPassword ∧
      (logIn pw st (pktBytes rid ty pl ++ tail)).state.loggedIn = false) ∧
    (rid ≠ firstId st → rid ≠ -1 →
      (logIn pw st (pktBytes rid ty pl ++ tail)).result = .ioFailure) ∧
    (logIn pw st (pktBytes rid ty pl ++ tail)).written = pktBytes (firstId st) LOGIN_TYPE pw ∧
    (logIn pw st (pktBytes rid ty pl ++ tail)).rest = tail := by
  have he := logIn_eq st pw pl tail rid ty hv hlog hpw hrid1 hrid2 hpl
  have hfst : firstId st ≠ -1 := getNextId_fst_ne_neg_one st hv
  have hlog2 : (getNextId st).2.loggedIn = false := by
    rw [getNextId_snd_loggedIn st, hlog]
  refine ⟨?_, ?_, ?_, ?_, ?_⟩
  · intro h hu
    rw [he]
    simp [h, hu, hfst]
  · intro h hu
    rw [he]
    simp [h, hu, hlog2]
  · intro h1 h2
    rw [he]
    simp [h1, h2]
  · rw [he]
    split
    · split <;> rfl
    · split
      · split <;> rfl
      · rfl
  · rw [he]
    split
    · split <;> rfl
    · split
      · split <;> rfl
      · rfl

theorem logIn_response_cases_witness :
    (logIn [112] initialState (pktBytes 0 3 [104] ++ [])).result = LogInResult.ok ∧
    (logIn [112] initialState (pktBytes 0 3 [104] ++ [])).state.loggedIn = true ∧
    (logIn [112] initialState (pktBytes (-1) 3 [104] ++ [])).result = LogInResult.badPassword ∧
    (logIn [112] initialState (pktBytes 7 3 [104] ++ [])).result = LogInResult.ioFailure := by
  have h1 := (logIn_response_cases initialState [112] [104] [] 0 3 (by decide) rfl
    (by decide) (by decide) (by decide) (by decide)).1 (by decide) (by decide)
  have h2 := ((logIn_response_cases initialState [112] [104] [] (-1) 3 (by decide) rfl
    (by decide) (by decide) (by decide) (by decide)).2.1) rfl (by decide)
  have h3 := ((logIn_response_cases initialState [112] [104] [] 7 3 (by decide) rfl
    (by decide) (by decide) (by decide) (by decide)).2.2.1) (by decide) (by decide)
  exact ⟨h1.1, h1.2, h2.1, h3⟩

/-- C1, counterexample to the claim as stated: a response packet that echoes
the sent id (0, for a fresh session) but carries a non-UTF-8 payload byte 255
makes `log_in` panic rather than succeed, so the success case of the claim
does not hold for every response payload. -/
theorem logIn_match_invalid_utf8_panics :
    firstId initialState = 0 ∧
    (logIn [112] initialState (pktBytes 0 3 [255])).result = LogInResult.panic ∧
    (logIn [112] initialState (pktBytes 0 3 [255])).result ≠ LogInResult.ok := by
  refine ⟨rfl, by decide, by decide⟩

end McRcon

namespace McRcon

/-- C4: every precondition failure is detected before any stream traffic and
leaves the session state unchanged: a too-long password fails with
`PasswordTooLong`, logging in twice fails with `AlreadyLoggedIn`, a too-long
command fails with `CommandTooLong`, and a command without login fails with
`NotLoggedIn` — each writing no bytes, reading no input, and returning the
state exactly as it was. -/
theorem precondition_failures (st : ClientState) (pw cmd input : List Nat) :
    (st.loggedIn = false → MAX_OUTGOING_PAYLOAD_LEN < pw.length →
      logIn pw st input = ⟨.passwordTooLong, st, [], input⟩) ∧
    (st.loggedIn = true → logIn pw st input = ⟨.alreadyLoggedIn, st, [], input⟩) ∧
    (st.loggedIn = true → MAX_OUTGOING_PAYLOAD_LEN < cmd.length →
      sendCommand cmd st input = ⟨.commandTooLong, st, [], input⟩) ∧
    (st.loggedIn = false → sendCommand cmd st input = ⟨.notLoggedIn, st, [], input⟩) := by
  refine ⟨?_, ?_, ?_, ?_⟩
  · intro h1 h2
    unfold logIn
    rw [if_neg (by simp [isLoggedIn, h1])]
    unfold send
    rw [if_pos h2]
  · intro h1
    unfold logIn
    rw [if_pos (by simp [isLoggedIn, h1])]
  · intro h1 h2
    unfold sendCommand
    rw [if_neg (by simp [isLoggedIn, h1])]
    unfold send
    rw [if_pos h2]
  · intro h1
    unfold sendCommand
    rw [if_pos (by simp [isLoggedIn, h1])]

theorem precondition_failures_witness :
    logIn (List.replicate 1447 97) initialState [5, 6]
      = ⟨.passwordTooLong, initialState, [], [5, 6]⟩ ∧
    logIn [112] ⟨3, true⟩ [5, 6] = ⟨.alreadyLoggedIn, ⟨3, true⟩, [], [5, 6]⟩ ∧
    sendCommand (List.replicate 1447 97) ⟨3, true⟩ [5, 6]
      = ⟨.commandTooLong, ⟨3, true⟩, [], [5, 6]⟩ ∧
    sendCommand [112] initialState [5, 6] = ⟨.notLoggedIn, initialState, [], [5, 6]⟩ := by
  refine ⟨?_, ?_, ?_, ?_⟩
  · exact (precondition_failures initialState (List.replicate 1447 97) [112] [5, 6]).1
      rfl (by simp only [List.length_replicate, MAX_OUTGOING_PAYLOAD_LEN]; omega)
  · exact (precondition_failures ⟨3, true⟩ [112] [112] [5, 6]).2.1 rfl
  · exact (precondition_failures ⟨3, true⟩ [112] (List.replicate 1447 97) [5, 6]).2.2.1
      rfl (by simp only [List.length_replicate, MAX_OUTGOING_PAYLOAD_LEN]; omega)
  · exact (precondition_failures initialState [112] [112] [5, 6]).2.2.2 rfl

/-- C5: for ids and type tags in the signed 32-bit range and payloads of at
most `MAX_OUTGOING_PAYLOAD_LEN` bytes, the encoded packet is exactly
`4 + HEADER_LEN + len` bytes laid out as the little-endian length field
`HEADER_LEN + len`, the little-endian id, the little-endian type, the payload,
and two zero bytes; and decoding that layout recovers the id, the type and the
payload (the reader recovers id and payload, and the four bytes it reads for
the type field decode back to the type). -/
theorem encode_layout_roundtrip (id ty : Int) (pl : List Nat)
    (hid1 : -2147483648 ≤ id) (hid2 : id ≤ 2147483647)
    (hty1 : -2147483648 ≤ ty) (hty2 : ty ≤ 2147483647)
    (hpl : pl.length ≤ MAX_OUTGOING_PAYLOAD_LEN) :
    (pktBytes id ty pl).length = 4 + HEADER_LEN + pl.length ∧
    fromLe4 (byteAt (pktBytes id ty pl) 0) (byteAt (pktBytes id ty pl) 1)
      (byteAt (pktBytes id ty pl) 2) (byteAt (pktBytes id ty pl) 3)
      = HEADER_LEN + pl.length ∧
    fromLe4 (byteAt (pktBytes id ty pl) 4) (byteAt (pktBytes id ty pl) 5)
      (byteAt (pktBytes id ty pl) 6) (byteAt (pktBytes id ty pl) 7) = id ∧
    fromLe4 (byteAt (pktBytes id ty pl) 8) (byteAt (pktBytes id ty pl) 9)
      (byteAt (pktBytes id ty pl) 10) (byteAt (pktBytes id ty pl) 11) = ty ∧
    (pktBytes id ty pl).drop 12 = pl ++ [0, 0] ∧
    readPacket (pktBytes id ty pl) = .ok id pl [] := by
  have hb : pl.length ≤ 1446 := by
    simpa only [MAX_OUTGOING_PAYLOAD_LEN] using hpl
  have hL := fromLe4_toLe4 (HEADER_LEN + (pl.length : Int))
    (by simp only [HEADER_LEN]; omega) (by simp only [HEADER_LEN]; omega)
  have hI := fromLe4_toLe4 id hid1 hid2
  have hT := fromLe4_toLe4 ty hty1 hty2
  refine ⟨?_, ?_, ?_, ?_, ?_, ?_⟩
  · simp only [pktBytes, toLe4, List.cons_append, List.nil_append, List.length_cons,
      List.length_append, List.length_nil, HEADER_LEN]
    omega
  · simp only [pktBytes, toLe4, List.cons_append, List.nil_append, byteAt, List.getD,
      List.get?_cons_zero, List.get?_cons_succ, Option.getD_some]
    exact hL
  · simp only [pktBytes, toLe4, List.cons_append, List.nil_append, byteAt, List.getD,
      List.get?_cons_zero, List.get?_cons_succ, Option.getD_some]
    exact hI
  · simp only [pktBytes, toLe4, List.cons_append, List.nil_append, byteAt, List.getD,
      List.get?_cons_zero, List.get?_cons_succ, Option.getD_some]
    exact hT
  · simp [pktBytes, toLe4]
  · rw [show pktBytes id ty pl = pktBytes id ty pl ++ [] by simp]
    exact readPacket_pktBytes id ty pl [] hid1 hid2 (by omega)

theorem encode_layout_roundtrip_witness :
    (pktBytes 5 2 [104, 105]).length = 4 + HEADER_LEN + 2 ∧
    fromLe4 (byteAt (pktBytes 5 2 [104, 105]) 0) (byteAt (pktBytes 5 2 [104, 105]) 1)
      (byteAt (pktBytes 5 2 [104, 105]) 2) (byteAt (pktBytes 5 2 [104, 105]) 3) = HEADER_LEN + 2 ∧
    fromLe4 (byteAt (pktBytes 5 2 [104, 105]) 4) (byteAt (pktBytes 5 2 [104, 105]) 5)
      (byteAt (pktBytes 5 2 [104, 105]) 6) (byteAt (pktBytes 5 2 [104, 105]) 7) = 5 ∧
    fromLe4 (byteAt (pktBytes 5 2 [104, 105]) 8) (byteAt (pktBytes 5 2 [104, 105]) 9)
      (byteAt (pktBytes 5 2 [104, 105]) 10) (byteAt (pktBytes 5 2 [104, 105]) 11) = 2 ∧
    (pktBytes 5 2 [104, 105]).drop 12 = [104, 105] ++ [0, 0] ∧
    readPacket (pktBytes 5 2 [104, 105]) = .ok 5 [104, 105] [] := by
  have h := encode_layout_roundtrip 5 2 [104, 105] (by decide) (by decide) (by decide)
    (by decide) (by decide)
  exact h

end McRcon

namespace McRcon

theorem pktBytes_ne_nil (id ty : Int) (pl : List Nat) : pktBytes id ty pl ≠ [] := by
  simp [pktBytes, toLe4]

theorem sendTail_written_ne_nil (kind : PacketKind) (inId : Int) (goodAuth : Bool)
    (payloadBuf : List Nat) (st1 : ClientState) (id0 ty0 : Int) (pl0 rest1 : List Nat) :
    (sendTail kind inId goodAuth payloadBuf st1 (pktBytes id0 ty0 pl0) rest1).written ≠ [] := by
  unfold sendTail
  split
  · simp only []
    rcases capLoop inId (getNextId st1).1 payloadBuf rest1 with ⟨lo, r2⟩
    cases lo <;> simp [pktBytes_ne_nil, apply_ite]
  · split <;> simp [pktBytes_ne_nil]

theorem send_written_ne_nil (kind : PacketKind) (payload : List Nat) (st : ClientState)
    (input : List Nat) (hlen : payload.length ≤ MAX_OUTGOING_PAYLOAD_LEN) :
    (send kind payload st input).written ≠ [] := by
  unfold send
  rw [if_neg (by simp only [MAX_OUTGOING_PAYLOAD_LEN] at hlen ⊢; omega)]
  simp only []
  cases hr : readPacket input with
  | ioError => exact pktBytes_ne_nil _ _ _
  | panic => exact pktBytes_ne_nil _ _ _
  | ok inId pl2 rest =>
    simp only []
    split
    · exact sendTail_written_ne_nil kind inId false pl2 (getNextId st).2 (getNextId st).1
        kind.type payload rest
    · split
      · exact sendTail_written_ne_nil kind inId true pl2 (getNextId st).2 (getNextId st).1
          kind.type payload rest
      · exact pktBytes_ne_nil _ _ _

theorem sendCommand_written_ne_nil (cmd : List Nat) (st : ClientState) (input : List Nat)
    (hlog : st.loggedIn = true) (hcmd : cmd.length ≤ MAX_OUTGOING_PAYLOAD_LEN) :
    (sendCommand cmd st input).written ≠ [] := by
  have hw := send_written_ne_nil CommandPacket cmd st input hcmd
  unfold sendCommand
  rw [if_neg (by simp [isLoggedIn, hlog])]
  simp only []
  split <;> exact hw

theorem validUtf8_of_ascii (l : List Nat) (h : ∀ b ∈ l, b < 128) : validUtf8 l = true := by
  induction l with
  | nil => rfl
  | cons b bs ih =>
    have hb : b < 128 := h b (by simp)
    rw [validUtf8.eq_def]
    simp only []
    rw [if_pos hb]
    exact ih (fun x hx => h x (by simp [hx]))

theorem validUtf8_255_head (bs : List Nat) : validUtf8 (255 :: bs) = false := by
  rw [validUtf8.eq_def]
  rcases bs with - | ⟨b1, - | ⟨b2, - | ⟨b3, bs3⟩⟩⟩ <;> norm_num

theorem capLoop_unexpected (origId capId iid ty : Int) (acc q rest : List Nat)
    (hne1 : iid ≠ capId) (hne2 : iid ≠ origId)
    (hi1 : -2147483648 ≤ iid) (hi2 : iid ≤ 2147483647)
    (hq : (q.length : Int) ≤ 2147483637) :
    capLoop origId capId acc (pktBytes iid ty q ++ rest) = (.ioError, rest) := by
  rw [capLoop]
  rw [readPacket_pktBytes iid ty q rest hi1 hi2 hq]
  simp [hne1, hne2]

theorem send_fragments_unexpected (kind : PacketKind) (payload p1 q tail : List Nat)
    (st : ClientState) (rid iid ty : Int)
    (hv : validI32 st.nextId)
    (hlen : payload.length ≤ MAX_OUTGOING_PAYLOAD_LEN)
    (hrid1 : -2147483648 ≤ rid) (hrid2 : rid ≤ 2147483647)
    (hp1 : MAX_INCOMING_PAYLOAD_LEN ≤ p1.length) (hp1b : (p1.length : Int) ≤ 2147483637)
    (hq : (q.length : Int) ≤ 2147483637)
    (hfrag : kind.acceptsLongResponses = true)
    (hridok : rid = -1 ∨ rid = firstId st)
    (hi1 : -2147483648 ≤ iid) (hi2 : iid ≤ 2147483647)
    (hine1 : iid ≠ secondId st) (hine2 : iid ≠ rid) :
    send kind payload st (pktBytes rid ty p1 ++ (pktBytes iid ty q ++ tail)) =
      ⟨.ioError, (getNextId (getNextId st).2).2,
        pktBytes (firstId st) kind.type payload ++ pktBytes (secondId st) kind.type CAP_COMMAND, tail⟩ := by
  have hfst : firstId st ≠ -1 := getNextId_fst_ne_neg_one st hv
  have hloop : capLoop rid ((getNextId (getNextId st).2).1) p1 (pktBytes iid ty q ++ tail)
      = (LoopOutcome.ioError, tail) :=
    capLoop_unexpected rid (secondId st) iid ty p1 q tail hine1 hine2 hi1 hi2 hq
  unfold send
  rw [if_neg (by simp only [MAX_OUTGOING_PAYLOAD_LEN] at hlen ⊢; omega)]
  rw [readPacket_pktBytes rid ty p1 _ hrid1 hrid2 hp1b]
  simp only []
  rcases hridok with h | h
  · subst h
    rw [if_pos rfl]
    unfold sendTail
    rw [if_pos ⟨hfrag, hp1⟩]
    simp only []
    rw [hloop]
    rfl
  · rw [if_neg (by rw [h]; exact hfst), show (getNextId st).1 = firstId st from rfl, if_pos h]
    unfold sendTail
    rw [if_pos ⟨hfrag, hp1⟩]
    simp only []
    rw [hloop]
    rfl


/-- C6 (amended): on an authenticated session, a single response packet with
id -1, a payload below the fragmentation cap `MAX_INCOMING_PAYLOAD_LEN`, and
valid-UTF-8 payload bytes makes `send_command` fail with `NotLoggedIn` — the
same variant as the unauthenticated-precondition failure.  (When the payload
reaches the cap the fragmentation path runs first and the call can fail with
an I/O error instead — see the counterexample.) -/
theorem sendCommand_deauth_notLoggedIn (st : ClientState) (cmd pl tail : List Nat) (ty : Int)
    (hv : validI32 st.nextId) (hlog : st.loggedIn = true)
    (hcmd : cmd.length ≤ MAX_OUTGOING_PAYLOAD_LEN)
    (hpl : (pl.length : Int) ≤ 2147483637)
    (hsmall : pl.length < MAX_INCOMING_PAYLOAD_LEN)
    (hu : validUtf8 pl = true) :
    (sendCommand cmd st (pktBytes (-1) ty pl ++ tail)).result = .notLoggedIn := by
  rw [sendCommand_eq st cmd pl tail (-1) ty hv hlog hcmd (by norm_num) (by norm_num) hpl hsmall]
  simp [hu]

theorem sendCommand_deauth_notLoggedIn_witness :
    (sendCommand [97] ⟨0, true⟩ (pktBytes (-1) 2 [104] ++ [])).result = CommandResult.notLoggedIn :=
  sendCommand_deauth_notLoggedIn ⟨0, true⟩ [97] [104] [] 2 (by decide) rfl (by decide)
    (by decide) (by decide) (by decide)

/-- C6, counterexample to the claim as stated: an authenticated command whose
response packet carries id -1 with a payload of exactly
`MAX_INCOMING_PAYLOAD_LEN` bytes enters the fragmentation path; when the next
packet carries an unrelated id (5), the call fails with an I/O-class error,
not with `NotLoggedIn`. -/
theorem sendCommand_deauth_cap_ioError :
    (sendCommand [97] ⟨0, true⟩
        (pktBytes (-1) 2 (List.replicate 4096 97) ++ (pktBytes 5 2 [] ++ []))).result
      = CommandResult.ioFailure ∧
    (sendCommand [97] ⟨0, true⟩
        (pktBytes (-1) 2 (List.replicate 4096 97) ++ (pktBytes 5 2 [] ++ []))).result
      ≠ CommandResult.notLoggedIn := by
  have hs := send_fragments_unexpected CommandPacket [97] (List.replicate 4096 97) [] []
    ⟨0, true⟩ (-1) 5 2 (by decide) (by decide) (by norm_num) (by norm_num)
    (by simp only [List.length_replicate, MAX_INCOMING_PAYLOAD_LEN]; omega)
    (by simp only [List.length_replicate]; norm_num) (by decide)
    (by decide) (Or.inl rfl) (by norm_num) (by norm_num) (by decide) (by decide)
  have h1 : (sendCommand [97] ⟨0, true⟩
      (pktBytes (-1) 2 (List.replicate 4096 97) ++ (pktBytes 5 2 [] ++ []))).result
      = CommandResult.ioFailure := by
    unfold sendCommand
    rw [if_neg (by simp [isLoggedIn])]
    rw [hs]
  refine ⟨h1, ?_⟩
  rw [h1]
  decide

/-- C7 (amended): a response packet whose payload bytes are not valid UTF-8
text makes `log_in` and `send_command` panic (the source converts the payload
with `String::from_utf8(..).expect(..)`), rather than return any error: here
for any correlated response (id -1 or the sent id) below the fragmentation
cap. -/
theorem invalid_utf8_panics (st1 st2 : ClientState) (pw cmd pl tail : List Nat)
    (rid1 rid2 ty : Int)
    (hv1 : validI32 st1.nextId) (hlog1 : st1.loggedIn = false)
    (hpw : pw.length ≤ MAX_OUTGOING_PAYLOAD_LEN)
    (hok1 : rid1 = -1 ∨ rid1 = firstId st1)
    (hv2 : validI32 st2.nextId) (hlog2 : st2.loggedIn = true)
    (hcmd : cmd.length ≤ MAX_OUTGOING_PAYLOAD_LEN)
    (hok2 : rid2 = -1 ∨ rid2 = firstId st2)
    (hpl : (pl.length : Int) ≤ 2147483637)
    (hsmall : pl.length < MAX_INCOMING_PAYLOAD_LEN)
    (hu : validUtf8 pl = false) :
    (logIn pw st1 (pktBytes rid1 ty pl ++ tail)).result = .panic ∧
    (sendCommand cmd st2 (pktBytes rid2 ty pl ++ tail)).result = .panic := by
  have hr1 : validI32 rid1 := by
    rcases hok1 with h | h
    · rw [h]; exact ⟨by norm_num, by norm_num⟩
    · rw [h]; exact getNextId_fst_valid st1 hv1
  have hr2 : validI32 rid2 := by
    rcases hok2 with h | h
    · rw [h]; exact ⟨by norm_num, by norm_num⟩
    · rw [h]; exact getNextId_fst_valid st2 hv2
  constructor
  · rw [logIn_eq st1 pw pl tail rid1 ty hv1 hlog1 hpw hr1.1 hr1.2 hpl]
    rcases hok1 with h | h <;> simp [h, hu, getNextId_fst_ne_neg_one st1 hv1]
  · rw [sendCommand_eq st2 cmd pl tail rid2 ty hv2 hlog2 hcmd hr2.1 hr2.2 hpl hsmall]
    rcases hok2 with h | h <;> simp [h, hu, getNextId_fst_ne_neg_one st2 hv2]

theorem invalid_utf8_panics_witness :
    (logIn [112] initialState (pktBytes 0 3 [255] ++ [])).result = LogInResult.panic ∧
    (sendCommand [97] ⟨0, true⟩ (pktBytes 0 2 [255] ++ [])).result = CommandResult.panic :=
  invalid_utf8_panics initialState ⟨0, true⟩ [112] [97] [255] [] 0 0 2
    (by decide) rfl (by decide) (Or.inr (by decide)) (by decide) rfl (by decide)
    (Or.inr (by decide)) (by decide) (by decide) (by decide)

/-- C7, counterexample to the claim as stated: a correlated response with the
single non-UTF-8 payload byte 255 makes `send_command` panic; the failure is
not surfaced as the IO-class error variant. -/
theorem invalid_utf8_not_ioError :
    (sendCommand [97] ⟨0, true⟩ (pktBytes 0 2 [255])).result = CommandResult.panic ∧
    (sendCommand [97] ⟨0, true⟩ (pktBytes 0 2 [255])).result ≠ CommandResult.ioFailure := by
  refine ⟨by decide, by decide⟩

/-- C9: when `send_command` fails with `NotLoggedIn` because the server
answered with id -1, the `logged_in` flag is untouched — `is_logged_in` still
returns true — and a subsequent `send_command` passes the precondition and
writes a new packet to the stream. -/
theorem deauth_keeps_logged_in (st : ClientState) (cmd pl tail cmd2 input2 : List Nat) (ty : Int)
    (hv : validI32 st.nextId) (hlog : st.loggedIn = true)
    (hcmd : cmd.length ≤ MAX_OUTGOING_PAYLOAD_LEN)
    (hpl : (pl.length : Int) ≤ 2147483637)
    (hsmall : pl.length < MAX_INCOMING_PAYLOAD_LEN)
    (hu : validUtf8 pl = true)
    (hcmd2 : cmd2.length ≤ MAX_OUTGOING_PAYLOAD_LEN) :
    (sendCommand cmd st (pktBytes (-1) ty pl ++ tail)).result = .notLoggedIn ∧
    isLoggedIn (sendCommand cmd st (pktBytes (-1) ty pl ++ tail)).state = true ∧
    (sendCommand cmd2 (sendCommand cmd st (pktBytes (-1) ty pl ++ tail)).state input2).written ≠ [] := by
  have he := sendCommand_eq st cmd pl tail (-1) ty hv hlog hcmd (by norm_num) (by norm_num) hpl hsmall
  have hst : (sendCommand cmd st (pktBytes (-1) ty pl ++ tail)).state = (getNextId st).2 := by
    rw [he]
    simp [hu]
  have hflag : (getNextId st).2.loggedIn = true := by
    rw [getNextId_snd_loggedIn st, hlog]
  refine ⟨?_, ?_, ?_⟩
  · rw [he]
    simp [hu]
  · rw [hst]
    simp [isLoggedIn, hflag]
  · rw [hst]
    exact sendCommand_written_ne_nil cmd2 (getNextId st).2 input2 hflag hcmd2

theorem deauth_keeps_logged_in_witness :
    (sendCommand [97] ⟨0, true⟩ (pktBytes (-1) 2 [104] ++ [])).result = CommandResult.notLoggedIn ∧
    isLoggedIn (sendCommand [97] ⟨0, true⟩ (pktBytes (-1) 2 [104] ++ [])).state = true ∧
    (sendCommand [98] (sendCommand [97] ⟨0, true⟩ (pktBytes (-1) 2 [104] ++ [])).state []).written ≠ [] :=
  deauth_keeps_logged_in ⟨0, true⟩ [97] [104] [] [98] [] 2 (by decide) rfl (by decide)
    (by decide) (by decide) (by decide) (by decide)

end McRcon

namespace McRcon

/-- C2 (amended): on an authenticated session, when the first response packet
carries the sent id and a payload of at least `MAX_INCOMING_PAYLOAD_LEN`
bytes, the client sends exactly one probe request under a fresh id (distinct
from the request id and from -1), appends the payload of every further packet
carrying the request id, stops at the packet carrying the probe id discarding
the payload of that packet, and returns the concatenation of the original payload
and all continuation payloads in arrival order — provided the assembled
payload is valid UTF-8 (otherwise the call panics, see the counterexample). -/
theorem fragmented_command_reassembly (st : ClientState) (cmd p1 q tail : List Nat)
    (ps : List (List Nat)) (ty : Int)
    (hv : validI32 st.nextId) (hlog : st.loggedIn = true)
    (hcmd : cmd.length ≤ MAX_OUTGOING_PAYLOAD_LEN)
    (hp1 : MAX_INCOMING_PAYLOAD_LEN ≤ p1.length) (hp1b : (p1.length : Int) ≤ 2147483637)
    (hps : ∀ p ∈ ps, (p.length : Int) ≤ 2147483637)
    (hq : (q.length : Int) ≤ 2147483637)
    (hu : validUtf8 (p1 ++ ps.flatten) = true) :
    sendCommand cmd st
        (pktBytes (firstId st) ty p1 ++
          ((ps.map (pktBytes (firstId st) ty)).flatten ++ (pktBytes (secondId st) ty q ++ tail)))
      = ⟨.ok (p1 ++ ps.flatten), (getNextId (getNextId st).2).2,
          pktBytes (firstId st) COMMAND_TYPE cmd ++ pktBytes (secondId st) COMMAND_TYPE CAP_COMMAND, tail⟩ ∧
    secondId st ≠ firstId st ∧ secondId st ≠ -1 := by
  have hr : validI32 (firstId st) := getNextId_fst_valid st hv
  have he := sendCommand_frag_eq st cmd p1 q tail ps (firstId st) ty hv hlog hcmd
    hr.1 hr.2 hp1 hp1b hps hq (Or.inr rfl)
  rw [he]
  have hfst : firstId st ≠ -1 := getNextId_fst_ne_neg_one st hv
  refine ⟨?_, secondId_ne_firstId st hv, secondId_ne_neg_one st hv⟩
  rw [if_pos hu, if_neg hfst]

theorem fragmented_command_reassembly_witness :
    sendCommand [98, 105, 103] ⟨0, true⟩
        (pktBytes (firstId ⟨0, true⟩) 0 (List.replicate 4096 97) ++
          (([[98]].map (pktBytes (firstId ⟨0, true⟩) 0)).flatten ++
            (pktBytes (secondId ⟨0, true⟩) 0 [99] ++ [])))
      = ⟨.ok (List.replicate 4096 97 ++ [[98]].flatten), (getNextId (getNextId ⟨0, true⟩).2).2,
          pktBytes (firstId ⟨0, true⟩) COMMAND_TYPE [98, 105, 103] ++
            pktBytes (secondId ⟨0, true⟩) COMMAND_TYPE CAP_COMMAND, []⟩ ∧
    secondId ⟨0, true⟩ ≠ firstId ⟨0, true⟩ ∧ secondId ⟨0, true⟩ ≠ -1 :=
  fragmented_command_reassembly ⟨0, true⟩ [98, 105, 103] (List.replicate 4096 97) [99] []
    [[98]] 0 (by decide) rfl (by decide)
    (by simp only [List.length_replicate, MAX_INCOMING_PAYLOAD_LEN]; omega)
    (by simp only [List.length_replicate]; norm_num) (by decide) (by decide)
    (by
      apply validUtf8_of_ascii
      intro b hb
      simp only [List.mem_append, List.mem_replicate, List.flatten, List.mem_cons,
        List.not_mem_nil, or_false, List.append_nil] at hb
      rcases hb with ⟨-, h⟩ | h <;> omega)

/-- C2, counterexample to the claim as stated: the same fragmentation scenario
with a first payload of 4096 times byte 255 (not valid UTF-8) makes the call
panic instead of returning the assembled payload. -/
theorem fragmented_invalid_utf8_panics :
    (sendCommand [98] ⟨0, true⟩
        (pktBytes 0 2 (List.replicate 4096 255) ++ pktBytes 1 2 [])).result
      = CommandResult.panic ∧
    (sendCommand [98] ⟨0, true⟩
        (pktBytes 0 2 (List.replicate 4096 255) ++ pktBytes 1 2 [])).result
      ≠ CommandResult.ok (List.replicate 4096 255) := by
  have he := sendCommand_frag_eq ⟨0, true⟩ [98] (List.replicate 4096 255) [] [] [] 0 2
    (by decide) rfl (by decide) (by norm_num) (by norm_num)
    (by simp only [List.length_replicate, MAX_INCOMING_PAYLOAD_LEN]; omega)
    (by simp only [List.length_replicate]; norm_num) (by decide) (by decide)
    (Or.inr (by decide))
  have hsec : secondId ⟨0, true⟩ = 1 := by decide
  have hfst : firstId ⟨0, true⟩ = 0 := by decide
  rw [hsec, hfst] at he
  simp only [List.map_nil, List.flatten_nil, List.nil_append, List.append_nil] at he
  have hval : validUtf8 (List.replicate 4096 255) = false := by
    rw [show (4096 : Nat) = 4095 + 1 from rfl, List.replicate_succ]
    exact validUtf8_255_head _
  have h1 : (sendCommand [98] ⟨0, true⟩
      (pktBytes 0 2 (List.replicate 4096 255) ++ pktBytes 1 2 [])).result
      = CommandResult.panic := by
    rw [he, if_neg (by rw [hval]; decide)]
  refine ⟨h1, ?_⟩
  rw [h1]
  intro hc
  exact CommandResult.noConfusion hc

/-- C10: the fragmentation path is entered whenever the first response payload
reaches `MAX_INCOMING_PAYLOAD_LEN`, even when that response carries id -1
(failed authentication): the probe packet is written and the reassembly loop
runs to completion (consuming the probe echo) before `send_command` returns
`NotLoggedIn`. -/
theorem fragmentation_on_deauth (st : ClientState) (cmd p1 q tail : List Nat) (ty : Int)
    (hv : validI32 st.nextId) (hlog : st.loggedIn = true)
    (hcmd : cmd.length ≤ MAX_OUTGOING_PAYLOAD_LEN)
    (hp1 : MAX_INCOMING_PAYLOAD_LEN ≤ p1.length) (hp1b : (p1.length : Int) ≤ 2147483637)
    (hq : (q.length : Int) ≤ 2147483637)
    (hu : validUtf8 p1 = true) :
    sendCommand cmd st (pktBytes (-1) ty p1 ++ (pktBytes (secondId st) ty q ++ tail))
      = ⟨.notLoggedIn, (getNextId (getNextId st).2).2,
          pktBytes (firstId st) COMMAND_TYPE cmd ++ pktBytes (secondId st) COMMAND_TYPE CAP_COMMAND, tail⟩ := by
  have he := sendCommand_frag_eq st cmd p1 q tail [] (-1) ty hv hlog hcmd
    (by norm_num) (by norm_num) hp1 hp1b (by simp) hq (Or.inl rfl)
  simp only [List.map_nil, List.flatten_nil, List.nil_append, List.append_nil] at he
  rw [he]
  simp [hu]

theorem fragmentation_on_deauth_witness :
    sendCommand [97] ⟨0, true⟩
        (pktBytes (-1) 2 (List.replicate 4096 97) ++ (pktBytes (secondId ⟨0, true⟩) 2 [] ++ []))
      = ⟨.notLoggedIn, (getNextId (getNextId ⟨0, true⟩).2).2,
          pktBytes (firstId ⟨0, true⟩) COMMAND_TYPE [97] ++
            pktBytes (secondId ⟨0, true⟩) COMMAND_TYPE CAP_COMMAND, []⟩ :=
  fragmentation_on_deauth ⟨0, true⟩ [97] (List.replicate 4096 97) [] [] 2 (by decide) rfl
    (by decide)
    (by simp only [List.length_replicate, MAX_INCOMING_PAYLOAD_LEN]; omega)
    (by simp only [List.length_replicate]; norm_num) (by decide)
    (by
      apply validUtf8_of_ascii
      intro b hb
      simp only [List.mem_replicate] at hb
      omega)

/-- C8: an incoming packet whose declared length field is less than
`HEADER_LEN` — in particular the negative length -1 (bytes 255 255 255 255),
and length 0 — makes the decoder panic (the `usize::try_from(..).expect(..)`
conversion, respectively the underflowing `- HEADER_LEN` subtraction), rather
than report a protocol error to the caller; `send_command` surfaces this as a
panic, contradicting the claim that the computation never traps. -/
theorem bad_length_field_panics :
    fromLe4 255 255 255 255 = -1 ∧
    readPacket [255, 255, 255, 255, 0, 0, 0, 0, 0, 0, 0, 0] = ReadOutcome.panic ∧
    readPacket [0, 0, 0, 0, 0, 0, 0, 0, 0, 0, 0, 0, 0, 0] = ReadOutcome.panic ∧
    readPacket [9, 0, 0, 0, 0, 0, 0, 0, 0, 0, 0, 0, 0, 0] = ReadOutcome.panic ∧
    (sendCommand [97] ⟨0, true⟩ [255, 255, 255, 255, 0, 0, 0, 0, 0, 0, 0, 0]).result
      = CommandResult.panic := by
  refine ⟨by decide, by decide, by decide, by decide, by decide⟩

end McRcon

namespace McRcon

/-- C3: the id sequence of a fresh session starts at 0, never produces the
sentinel -1, is strictly increasing except at signed 32-bit wraparound (the
only decreasing step follows the id 2147483647), and whenever the stored next
value is -1 that value is skipped and 0 is produced instead. -/
theorem idSeq_props :
    idSeq 0 = 0 ∧
    (∀ n, idSeq n ≠ -1) ∧
    (∀ n, idSeq n < idSeq (n + 1) ∨ idSeq n = 2147483647) ∧
    (∀ st : ClientState, st.nextId = -1 → (getNextId st).1 = 0) := by
  refine ⟨rfl, ?_, ?_, ?_⟩
  · intro n
    exact getNextId_fst_ne_neg_one _ (stateSeq_valid n)
  · intro n
    exact getNextId_consecutive _ (stateSeq_valid n)
  · intro st h
    exact getNextId_skip st h

theorem idSeq_props_witness :
    idSeq 0 = 0 ∧ idSeq 5 ≠ -1 ∧ (idSeq 5 < idSeq 6 ∨ idSeq 5 = 2147483647) ∧
      (getNextId ⟨-1, false⟩).1 = 0 :=
  ⟨idSeq_props.1, idSeq_props.2.1 5, idSeq_props.2.2.1 5, idSeq_props.2.2.2 ⟨-1, false⟩ rfl⟩

end McRcon
